import Mathlib

/-!
Shallow embedding of `src/watch.py` (ChazkiDeliveryWatcher): the log-entry
data model, the diff computed by the `Watcher.entries` setter, the
notification message builder, the page-row parser, and exception-aware
variants of the setter for the state-preservation properties.
-/

/-- One row of the tracking history (`@dataclass class Entry` in `watch.py`,
lines 37-41): three free-text fields. Python dataclass equality is
structural, which the derived `DecidableEq` mirrors. -/
structure Entry where
  date : String
  location : String
  message : String
deriving DecidableEq, Repr

/-- The diff loop of the `Watcher.entries` setter (`watch.py` lines 74-77):
iterate over `new_entries`, appending each entry not already a member of the
prior `self._entries` list to `added`. Python list membership uses the
structural `==` of the dataclass. -/
def computeAdded (prior : List Entry) (new_entries : List Entry) : List Entry :=
  new_entries.foldl (fun added entry => if entry ∈ prior then added else added ++ [entry]) []

/-- Lowercase hexadecimal digit, as CPython prints in \xhh escapes. -/
def hexDigit (n : Nat) : Char :=
  if n < 10 then Char.ofNat (48 + n) else Char.ofNat (87 + n)

/-- Two lowercase hexadecimal digits of a byte value. -/
def hex2 (n : Nat) : String :=
  String.singleton (hexDigit (n / 16 % 16)) ++ String.singleton (hexDigit (n % 16))

/-- CPython repr of a single character of a str, given the quote character
chosen for the whole literal: backslash and the quote are backslash-escaped,
newline, carriage return and tab use their two-character escapes, other
control characters use \xhh, and printable characters stand for themselves. -/
def pyReprChar (quote : Char) (c : Char) : String :=
  if c = '\\' then "\\\\"
  else if c = quote then "\\" ++ String.singleton quote
  else if c = '\n' then "\\n"
  else if c = '\r' then "\\r"
  else if c = '\t' then "\\t"
  else if c.toNat < 32 ∨ c.toNat = 127 then "\\x" ++ hex2 c.toNat
  else String.singleton c

/-- CPython repr of a str: single-quoted, unless the string contains a
single quote and no double quote, in which case double-quoted. -/
def pyReprStr (s : String) : String :=
  let q : Char := if s.contains '\'' ∧ ¬ s.contains '"' then '"' else '\''
  String.singleton q ++ String.join (s.toList.map (pyReprChar q)) ++ String.singleton q

/-- The fixed string representation of an `Entry`. The dataclass in
`watch.py` lines 37-41 declares no custom str or repr, so `print(entry)`
and `f-string` interpolation use the dataclass-generated repr
`Entry(date=..., location=..., message=...)` with each field shown as a
Python string literal. -/
def entryStr (e : Entry) : String :=
  "Entry(date=" ++ pyReprStr e.date ++ ", location=" ++ pyReprStr e.location
    ++ ", message=" ++ pyReprStr e.message ++ ")"

/-- The message built by `Watcher._notify` (`watch.py` lines 113-116):
a fixed header, then `"  - {entry}\n"` appended per entry, then the
tracker URL trailer. -/
def notifyMsg (url : String) (new_entries : List Entry) : String :=
  let msg := "Update in your delivery!\n\n"
  let msg := new_entries.foldl (fun m entry => m ++ "  - " ++ entryStr entry ++ "\n") msg
  msg ++ "\nURL: " ++ url

/-- Truthiness of `self.recipient : str | None` as tested by
`if self.recipient:` (`watch.py` line 112): `None` and the empty string are
falsy, every other string is truthy. -/
def recipientSet : Option String → Bool
  | none => false
  | some r => r ≠ ""

/-- The calls `Watcher._notify` hands to the external send collaborator
(`pywhatkit.sendwhatmsg_instantly`, `watch.py` line 118), recorded as
(recipient, message) pairs: one send when the recipient is truthy, none
otherwise. -/
def notifySends (recipient : Option String) (url : String) (new_entries : List Entry) :
    List (String × String) :=
  match recipient with
  | none => []
  | some r => if r = "" then [] else [(r, notifyMsg url new_entries)]

/-- One run of the `Watcher.entries` setter (`watch.py` lines 72-80) in the
non-failing case: from the prior `self._entries` and the incoming
`new_entries`, the new value of `self._entries` (first component) and the
sends handed to the collaborator (second component). `_notify` is invoked
only when `added` is nonempty. -/
def entriesSetter (recipient : Option String) (url : String)
    (prior new_entries : List Entry) : List Entry × List (String × String) :=
  let added := computeAdded prior new_entries
  (new_entries, if added.isEmpty then [] else notifySends recipient url added)

/-- `Watcher._notify` with a fallible send collaborator: the collaborator
either succeeds or raises. With a falsy recipient the collaborator is never
reached, so the call trivially succeeds. -/
def notifyRun (send : String → String → Except String Unit)
    (recipient : Option String) (url : String) (new_entries : List Entry) :
    Except String Unit :=
  match recipient with
  | none => Except.ok ()
  | some r => if r = "" then Except.ok () else send r (notifyMsg url new_entries)

/-- One run of the `Watcher.entries` setter with a fallible send
collaborator: if `_notify` raises, the exception propagates before the
assignment `self._entries = new_entries` on line 80 executes, so the field
keeps its prior value; otherwise the assignment replaces it. The result is
(propagated outcome, final value of `self._entries`). -/
def entriesSetterRun (send : String → String → Except String Unit)
    (recipient : Option String) (url : String) (prior new_entries : List Entry) :
    Except String Unit × List Entry :=
  let added := computeAdded prior new_entries
  match (if added.isEmpty then Except.ok () else notifyRun send recipient url added) with
  | Except.error e => (Except.error e, prior)
  | Except.ok _ => (Except.ok (), new_entries)

/-- `_parse_entry` (`watch.py` lines 44-53): reads cells 0..3 of a row,
raising IndexError (modelled as `none`) when the row is shorter, and builds
the entry with `date = f"{date} {time}"`. Cells past the fourth are never
read. -/
def parse_entry (columns : List String) : Option Entry := do
  let date ← columns[0]?
  let time ← columns[1]?
  let location ← columns[2]?
  let message ← columns[3]?
  pure { date := date ++ " " ++ time, location := location, message := message }

/-- `Watcher._find_entries` (`watch.py` lines 88-98) after the browser
lookups: each row is its list of td-cell texts in rendered order; rows with
no cells are skipped, every other row is parsed with `_parse_entry`, whose
IndexError propagates (modelled as `Except.error`). Order is preserved. -/
def find_entries : List (List String) → Except String (List Entry)
  | [] => Except.ok []
  | columns :: rest =>
    if columns.isEmpty then find_entries rest
    else
      match parse_entry columns with
      | none => Except.error "IndexError"
      | some entry => (find_entries rest).map (fun es => entry :: es)

/-- Modelled from the spec: one line per new entry in the shape
"date — location — message" that section 4.3 ascribes to the fixed string
representation of an entry. -/
def specEntryLine (e : Entry) : String :=
  e.date ++ " — " ++ e.location ++ " — " ++ e.message

/-- Modelled from the spec: the notification message as section 4.3
describes it, with each entry rendered in the "date — location — message"
shape instead of the dataclass repr. -/
def specNotifyMsg (url : String) (new_entries : List Entry) : String :=
  let msg := "Update in your delivery!\n\n"
  let msg := new_entries.foldl (fun m entry => m ++ "  - " ++ specEntryLine entry ++ "\n") msg
  msg ++ "\nURL: " ++ url

/-- The per-entry lines of the notification message, one per entry, in
order, each rendered through the fixed entry representation. -/
def msgLines : List Entry → String
  | [] => ""
  | e :: rest => "  - " ++ entryStr e ++ "\n" ++ msgLines rest

/-- Modelled from the spec: the Log Entry a data row yields, with the date
field combining the date cell and the time cell and the location and
message read from the third and fourth cells (shorter rows padded with "",
which the length hypothesis of the amended claim rules out). -/
def specRowEntry (row : List String) : Entry :=
  ⟨row.getD 0 "" ++ " " ++ row.getD 1 "", row.getD 2 "", row.getD 3 ""⟩

lemma computeAdded_foldl_aux (prior : List Entry) (l : List Entry) (acc : List Entry) :
    l.foldl (fun added entry => if entry ∈ prior then added else added ++ [entry]) acc
      = acc ++ l.filter (fun e => decide (e ∉ prior)) := by
  induction l generalizing acc with
  | nil => simp
  | cons x xs ih =>
    by_cases hx : x ∈ prior
    · simp [List.foldl_cons, hx, ih]
    · simp [List.foldl_cons, hx, ih]

/-- The setter diff is exactly a structural-membership filter of the current
sequence against the prior one. -/
lemma computeAdded_eq_filter (prior current : List Entry) :
    computeAdded prior current = current.filter (fun e => decide (e ∉ prior)) := by
  simpa using computeAdded_foldl_aux prior current []

lemma str_append_assoc (a b c : String) : a ++ b ++ c = a ++ (b ++ c) := by
  apply String.ext
  simp

lemma notifyMsg_foldl (l : List Entry) (init : String) :
    l.foldl (fun m entry => m ++ "  - " ++ entryStr entry ++ "\n") init
      = init ++ msgLines l := by
  induction l generalizing init with
  | nil =>
    apply String.ext
    simp [msgLines]
  | cons e rest ih =>
    apply String.ext
    simp only [List.foldl_cons, ih, msgLines]
    simp [str_append_assoc]

lemma computeAdded_eq_nil_of_subset (prior cur : List Entry)
    (h : ∀ e ∈ cur, e ∈ prior) : computeAdded prior cur = [] := by
  rw [computeAdded_eq_filter]
  rw [List.filter_eq_nil_iff]
  intro e he
  simp [h e he]

lemma parse_entry_of_four_le (row : List String) (h : 4 ≤ row.length) :
    parse_entry row = some (specRowEntry row) := by
  match row, h with
  | a :: b :: c :: d :: t, _ => simp [parse_entry, specRowEntry]

/-- C1: the computed `added` sequence equals exactly the elements of
`current` not structurally equal to any element of `prior`, in the order of
`current`, each duplicate occurrence tested independently against `prior`
(an entry absent from `prior` keeps its full multiplicity from `current`,
and an entry present in `prior` never appears in `added`). -/
theorem diff_correct (prior current : List Entry) :
    computeAdded prior current = current.filter (fun e => decide (e ∉ prior)) ∧
    ∀ e : Entry, (computeAdded prior current).count e
      = if e ∈ prior then 0 else current.count e := by
  refine ⟨computeAdded_eq_filter prior current, fun e => ?_⟩
  rw [computeAdded_eq_filter]
  by_cases he : e ∈ prior
  · simp [he, List.count_eq_zero, List.mem_filter]
  · simp only [he, if_false]
    rw [List.count_filter]
    simp [he]

/-- C2 counterexample: the dataclass declares no custom str, so the fixed
string representation of an entry is the dataclass repr, not the
"date — location — message" shape; consequently the message built by
`_notify` differs from the spec-shaped one at a concrete input. -/
theorem notify_message_shape_counterexample :
    entryStr ⟨"D", "L", "M"⟩ ≠ specEntryLine ⟨"D", "L", "M"⟩ ∧
    notifyMsg "u" [⟨"D", "L", "M"⟩] ≠ specNotifyMsg "u" [⟨"D", "L", "M"⟩] := by
  constructor <;> decide

/-- C2 (amended): for every non-empty added sequence and truthy recipient,
the single message handed to the send collaborator is the fixed header,
then one line per new entry rendered through the dataclass repr of the
entry, then the tracker URL trailer. -/
theorem notify_message_shape (url : String) (r : String) (new_entries : List Entry)
    (h1 : new_entries ≠ []) (h2 : r ≠ "") :
    notifySends (some r) url new_entries = [(r, notifyMsg url new_entries)] ∧
    notifyMsg url new_entries
      = "Update in your delivery!\n\n" ++ msgLines new_entries ++ ("\nURL: " ++ url) := by
  constructor
  · simp [notifySends, h2]
  · show (new_entries.foldl (fun m entry => m ++ "  - " ++ entryStr entry ++ "\n")
      "Update in your delivery!\n\n") ++ "\nURL: " ++ url = _
    rw [notifyMsg_foldl, str_append_assoc]

/-- C2 witness. -/
theorem notify_message_shape_witness :
    notifySends (some "123") "u" [⟨"D", "L", "M"⟩]
      = [("123", notifyMsg "u" [⟨"D", "L", "M"⟩])] ∧
    notifyMsg "u" [⟨"D", "L", "M"⟩]
      = "Update in your delivery!\n\n" ++ msgLines [⟨"D", "L", "M"⟩] ++ ("\nURL: " ++ "u") :=
  notify_message_shape "u" "123" [⟨"D", "L", "M"⟩] (by decide) (by decide)

/-- C3: the send collaborator is handed a message iff the computed added
sequence is non-empty and the recipient is truthy; and with a falsy
recipient the cycle completes without error for every send collaborator,
still replacing the state (the skip is silent, not a failure). -/
theorem notifier_gating (recipient : Option String) (url : String)
    (prior cur : List Entry) :
    ((entriesSetter recipient url prior cur).2 ≠ []
        ↔ computeAdded prior cur ≠ [] ∧ recipientSet recipient = true) ∧
    (recipientSet recipient = false →
      ∀ send, entriesSetterRun send recipient url prior cur = (Except.ok (), cur)) := by
  constructor
  · match recipient with
    | none =>
      simp [entriesSetter, notifySends, recipientSet]
    | some r =>
      by_cases hr : r = ""
      · simp [entriesSetter, notifySends, recipientSet, hr]
      · by_cases ha : (computeAdded prior cur).isEmpty
        · simp_all [entriesSetter, notifySends, recipientSet,
            List.isEmpty_iff]
        · simp_all [entriesSetter, notifySends, recipientSet,
            List.isEmpty_iff]
  · intro hfalse send
    match recipient with
    | none =>
      dsimp [entriesSetterRun, notifyRun]
      split
      · rename_i e heq
        split at heq <;> simp_all
      · rfl
    | some r =>
      have hr : r = "" := by simpa [recipientSet] using hfalse
      subst hr
      dsimp [entriesSetterRun, notifyRun]
      split
      · rename_i e heq
        split at heq <;> simp_all
      · rfl

/-- C3 witness. -/
theorem notifier_gating_witness :
    recipientSet (some "") = false ∧
    ((entriesSetter (some "") "u" [] [⟨"D", "L", "M"⟩]).2 ≠ []
        ↔ computeAdded [] [⟨"D", "L", "M"⟩] ≠ [] ∧ recipientSet (some "") = true) ∧
    entriesSetterRun (fun _ _ => Except.error "boom") (some "") "u" [] [⟨"D", "L", "M"⟩]
      = (Except.ok (), [⟨"D", "L", "M"⟩]) :=
  ⟨by decide, (notifier_gating (some "") "u" [] [⟨"D", "L", "M"⟩]).1,
    (notifier_gating (some "") "u" [] [⟨"D", "L", "M"⟩]).2 (by decide)
      (fun _ _ => Except.error "boom")⟩

/-- C4: after a cycle completes, the observed state is exactly the sequence
just read, whatever the diff computed and whoever the recipient is: a full
unconditional replacement, never a merge with the prior state. -/
theorem state_replacement (recipient : Option String) (url : String)
    (prior cur : List Entry) :
    (entriesSetter recipient url prior cur).1 = cur := rfl

/-- C5: on the first cycle the prior state is the empty list
(`Watcher.__init__`, line 64), so the diff returns the whole current
sequence, and with a truthy recipient the full history is handed to the
send collaborator. -/
theorem first_cycle_all_added (cur : List Entry) (h : cur ≠ []) :
    computeAdded [] cur = cur ∧
    ∀ r url, r ≠ "" →
      (entriesSetter (some r) url [] cur).2 = [(r, notifyMsg url cur)] := by
  have hall : computeAdded [] cur = cur := by
    rw [computeAdded_eq_filter]
    simp
  refine ⟨hall, fun r url hr => ?_⟩
  have hne : (computeAdded [] cur).isEmpty = false := by
    rw [hall]
    exact List.isEmpty_eq_false_iff_exists_mem.mpr
      (List.exists_mem_of_ne_nil cur h)
  simp [entriesSetter, hne, notifySends, hr, hall, h]

/-- C5 witness. -/
theorem first_cycle_all_added_witness :
    computeAdded [] [⟨"D", "L", "M"⟩] = [⟨"D", "L", "M"⟩] ∧
    (entriesSetter (some "123") "u" [] [⟨"D", "L", "M"⟩]).2
      = [("123", notifyMsg "u" [⟨"D", "L", "M"⟩])] :=
  ⟨(first_cycle_all_added [⟨"D", "L", "M"⟩] (by decide)).1,
    (first_cycle_all_added [⟨"D", "L", "M"⟩] (by decide)).2 "123" "u" (by decide)⟩

/-- C6: when prior and current hold the same multiset of entries (any
order), the diff is empty; and after the state replacement of a cycle, a
second diff against the unchanged current sequence is empty as well. -/
theorem no_change_no_added (prior cur : List Entry) (h : prior.Perm cur) :
    computeAdded prior cur = [] ∧
    ∀ recipient url, computeAdded (entriesSetter recipient url prior cur).1 cur = [] := by
  constructor
  · exact computeAdded_eq_nil_of_subset prior cur (fun e he => h.mem_iff.mpr he)
  · intro recipient url
    exact computeAdded_eq_nil_of_subset cur cur (fun e he => he)

/-- C6 witness. -/
theorem no_change_no_added_witness :
    computeAdded [⟨"D1", "L1", "M1"⟩, ⟨"D2", "L2", "M2"⟩]
        [⟨"D2", "L2", "M2"⟩, ⟨"D1", "L1", "M1"⟩] = [] ∧
    computeAdded (entriesSetter none "u" [⟨"D1", "L1", "M1"⟩, ⟨"D2", "L2", "M2"⟩]
        [⟨"D2", "L2", "M2"⟩, ⟨"D1", "L1", "M1"⟩]).1
      [⟨"D2", "L2", "M2"⟩, ⟨"D1", "L1", "M1"⟩] = [] :=
  ⟨(no_change_no_added _ _ (by decide)).1,
    (no_change_no_added _ _ (by decide)).2 none "u"⟩

/-- C7 counterexample: the date field of a parsed entry is the date cell
and the time cell joined by a space, not their plain concatenation; and a
row with one cell is not skipped but fails the whole scrape. -/
theorem page_reader_rows_counterexample :
    find_entries [["D", "T", "L", "M"]] = Except.ok [⟨"D T", "L", "M"⟩] ∧
    ("D T" : String) ≠ "D" ++ "T" ∧
    find_entries [["x"]] = Except.error "IndexError" := by
  refine ⟨rfl, by decide, rfl⟩

/-- C7 (amended): for every sequence of scraped rows in which each row
yields no cells or at least four, the reader produces one entry per row
with cells, skips the zero-cell rows, preserves the rendered order, and
each date field is the date cell and the time cell joined by one space. -/
theorem page_reader_rows (rows : List (List String))
    (h : ∀ row ∈ rows, row = [] ∨ 4 ≤ row.length) :
    find_entries rows
      = Except.ok ((rows.filter (fun r => !r.isEmpty)).map specRowEntry) := by
  induction rows with
  | nil => rfl
  | cons row rest ih =>
    have hrest := ih (fun r hr => h r (List.mem_cons_of_mem row hr))
    rcases h row (List.mem_cons_self row rest) with hempty | hlong
    · subst hempty
      simpa [find_entries] using hrest
    · have hne : row.isEmpty = false := by
        cases row with
        | nil => simp at hlong
        | cons a t => rfl
      rw [find_entries]
      simp only [hne, Bool.false_eq_true, if_false,
        parse_entry_of_four_le row hlong, hrest, List.filter_cons, Bool.not_false]
      rfl

/-- C7 witness. -/
theorem page_reader_rows_witness :
    find_entries [["D", "T", "L", "M"], [], ["D2", "T2", "L2", "M2"]]
      = Except.ok [⟨"D T", "L", "M"⟩, ⟨"D2 T2", "L2", "M2"⟩] := by
  have h := page_reader_rows [["D", "T", "L", "M"], [], ["D2", "T2", "L2", "M2"]]
    (by decide)
  simpa [specRowEntry] using h

/-- C8: entry equality is structural: two entries are equal exactly when
the three fields match, so a change in any single field breaks equality and
no notion of identity beyond the fields exists. -/
theorem entry_structural_eq (a b : Entry) :
    a = b ↔ a.date = b.date ∧ a.location = b.location ∧ a.message = b.message := by
  cases a
  cases b
  simp

/-- C9: the notify call of the setter runs before the assignment replacing
`self._entries`, so whenever the cycle propagates a failure from the send
collaborator, the observed state still holds the prior sequence. -/
theorem notify_failure_preserves_state
    (send : String → String → Except String Unit) (recipient : Option String)
    (url : String) (prior cur : List Entry) (err : String)
    (h : (entriesSetterRun send recipient url prior cur).1 = Except.error err) :
    (entriesSetterRun send recipient url prior cur).2 = prior := by
  revert h
  dsimp [entriesSetterRun]
  split
  · intro _
    rfl
  · intro h
    simp at h

/-- C9 witness. -/
theorem notify_failure_preserves_state_witness :
    (entriesSetterRun (fun _ _ => Except.error "boom") (some "123") "u"
        [⟨"D0", "L0", "M0"⟩] [⟨"D0", "L0", "M0"⟩, ⟨"D1", "L1", "M1"⟩]).1
      = Except.error "boom" ∧
    (entriesSetterRun (fun _ _ => Except.error "boom") (some "123") "u"
        [⟨"D0", "L0", "M0"⟩] [⟨"D0", "L0", "M0"⟩, ⟨"D1", "L1", "M1"⟩]).2
      = [⟨"D0", "L0", "M0"⟩] :=
  ⟨rfl, notify_failure_preserves_state (fun _ _ => Except.error "boom")
    (some "123") "u" [⟨"D0", "L0", "M0"⟩] [⟨"D0", "L0", "M0"⟩, ⟨"D1", "L1", "M1"⟩]
    "boom" rfl⟩

/-- C10: parsing is only total on rows with at least four cells: a row with
one to three cells is not skipped (only zero-cell rows are) and fails the
indexing, which aborts the whole scrape; cells past the fourth are ignored. -/
theorem parse_partiality :
    (∀ cols : List String, cols ≠ [] → cols.length < 4 → parse_entry cols = none) ∧
    (∀ c0 c1 c2 c3 : String, ∀ rest : List String,
      parse_entry (c0 :: c1 :: c2 :: c3 :: rest)
        = some ⟨c0 ++ " " ++ c1, c2, c3⟩) ∧
    (∀ rows : List (List String), (∃ row ∈ rows, row ≠ [] ∧ row.length < 4) →
      find_entries rows = Except.error "IndexError") := by
  have hshort : ∀ cols : List String, cols ≠ [] → cols.length < 4 →
      parse_entry cols = none := by
    intro cols h1 h2
    match cols with
    | [] => exact absurd rfl h1
    | [a] => rfl
    | [a, b] => rfl
    | [a, b, c] => rfl
    | a :: b :: c :: d :: t =>
      exfalso
      simp at h2
      omega
  refine ⟨hshort, fun c0 c1 c2 c3 rest => by simp [parse_entry], fun rows hbad => ?_⟩
  induction rows with
  | nil => simp at hbad
  | cons row rest ih =>
    rcases hbad with ⟨bad, hmem, hne, hlen⟩
    rcases List.mem_cons.mp hmem with hhead | htail
    · subst hhead
      have hempty : bad.isEmpty = false := by
        cases bad with
        | nil => exact absurd rfl hne
        | cons a t => rfl
      rw [find_entries]
      simp [hempty, hshort bad hne hlen]
    · by_cases hrow : row.isEmpty
      · rw [find_entries]
        simp only [hrow, if_true]
        exact ih ⟨bad, htail, hne, hlen⟩
      · rw [find_entries]
        simp only [hrow, Bool.false_eq_true, if_false]
        cases hp : parse_entry row with
        | none => rfl
        | some e =>
          rw [ih ⟨bad, htail, hne, hlen⟩]
          rfl

/-- C10 witness. -/
theorem parse_partiality_witness :
    parse_entry ["a"] = none ∧
    parse_entry ["a", "b", "c", "d", "e"] = some ⟨"a" ++ " " ++ "b", "c", "d"⟩ ∧
    find_entries [["D", "T", "L", "M"], ["x", "y"]] = Except.error "IndexError" :=
  ⟨parse_partiality.1 ["a"] (by decide) (by decide),
    parse_partiality.2.1 "a" "b" "c" "d" ["e"],
    parse_partiality.2.2 [["D", "T", "L", "M"], ["x", "y"]]
      ⟨["x", "y"], by decide, by decide, by decide⟩⟩
